import Mathlib

/-!
Verification of the retrieval-ranking and context-assembly engine of
`server/scripts/ask.py`.

The Python code is shallowly embedded:
* Python strings are modelled as `List Char` (named `Str` below), so that
  `len`, slicing and concatenation become `List.length`, `List.take` and
  `(++)`.
* Neo4j calendar dates are modelled by a `Date` structure (proleptic
  Gregorian calendar) with the duration arithmetic used in the Cypher query
  of `get_relevant_events_and_claims` (`date() - duration('P3M')`,
  `duration.inDays(a, b).days`, date comparison).
* The Cypher ranking pipeline of `get_relevant_events_and_claims` is
  embedded as a pure function over a snapshot of the graph store
  (`GraphDB`): pool pre-filter, cosine similarity, time relevance,
  combined score, descending sort, per-type truncation, and the Python-side
  `[:max_events]` / `[:max_claims]` truncation.
* Floats are modelled by real numbers.
* `asyncio.gather` (used by `process_all_chain_of_thought_questions`) is
  modelled in two complementary ways: exception propagation as the `Except`
  monad (`mapM`), and its index-preserving join as slot assignment driven by
  an arbitrary completion order.
-/

/-- Python strings, modelled as their sequence of characters. -/
abbrev Str := List Char

/-- Character data of a Lean string literal, used to embed Python string
literals. -/
def lit (s : String) : Str := s.data

/-! ## Calendar dates (Neo4j `Date` values) -/

/-- A calendar date in the proleptic Gregorian calendar, as stored by Neo4j
for `Event.start_date` and produced by `date()`. -/
structure Date where
  year : Int
  month : Nat
  day : Nat
deriving DecidableEq

/-- Neo4j date comparison `a <= b` (chronological, i.e. lexicographic on
year, month, day). -/
def Date.ble (a b : Date) : Bool :=
  decide (a.year < b.year ∨ (a.year = b.year ∧ (a.month < b.month ∨
    (a.month = b.month ∧ a.day ≤ b.day))))

/-- Neo4j date comparison `a < b`. -/
def Date.blt (a b : Date) : Bool :=
  decide (a.year < b.year ∨ (a.year = b.year ∧ (a.month < b.month ∨
    (a.month = b.month ∧ a.day < b.day))))

/-- Gregorian leap-year rule. -/
def isLeapYear (y : Int) : Bool :=
  (y % 4 == 0 && y % 100 != 0) || y % 400 == 0

/-- Number of days in a month of a given year. -/
def daysInMonth (y : Int) (m : Nat) : Nat :=
  if m = 2 then (if isLeapYear y then 29 else 28)
  else if m = 4 ∨ m = 6 ∨ m = 9 ∨ m = 11 then 30
  else 31

/-- Days since 1970-01-01 of a date (civil-calendar conversion). -/
def Date.toEpochDay (d : Date) : Int :=
  let y : Int := if d.month ≤ 2 then d.year - 1 else d.year
  let era : Int := Int.fdiv y 400
  let yoe : Nat := (y - era * 400).toNat
  let mp : Nat := (d.month + 9) % 12
  let doy : Nat := (153 * mp + 2) / 5 + d.day - 1
  let doe : Nat := yoe * 365 + yoe / 4 - yoe / 100 + doy
  era * 146097 + (doe : Int) - 719468

/-- Date with a given number of days since 1970-01-01 (inverse
civil-calendar conversion). -/
def Date.fromEpochDay (z0 : Int) : Date :=
  let z : Int := z0 + 719468
  let era : Int := Int.fdiv z 146097
  let doe : Nat := (z - era * 146097).toNat
  let yoe : Nat := (doe - doe / 1460 + doe / 36524 - doe / 146096) / 365
  let y : Int := (yoe : Int) + era * 400
  let doy : Nat := doe - (365 * yoe + yoe / 4 - yoe / 100)
  let mp : Nat := (5 * doy + 2) / 153
  let dd : Nat := doy - (153 * mp + 2) / 5 + 1
  let m : Nat := if mp < 10 then mp + 3 else mp - 9
  ⟨if m ≤ 2 then y + 1 else y, m, dd⟩

/-- Neo4j `date - duration('PnM')`: subtract calendar months, clamping the
day of month. -/
def Date.subMonths (dt : Date) (n : Nat) : Date :=
  let total : Int := dt.year * 12 + (dt.month : Int) - 1 - n
  let y : Int := Int.fdiv total 12
  let m : Nat := (total - y * 12).toNat + 1
  ⟨y, m, min dt.day (daysInMonth y m)⟩

/-- Neo4j `date - duration('PnD')`: subtract days. -/
def Date.subDays (dt : Date) (n : Nat) : Date :=
  Date.fromEpochDay (dt.toEpochDay - n)

/-- Neo4j `date - duration('PnY')`: subtract calendar years, clamping the
day of month (February 29). -/
def Date.subYears (dt : Date) (n : Nat) : Date :=
  let y : Int := dt.year - n
  ⟨y, dt.month, min dt.day (daysInMonth y dt.month)⟩

/-! ## Graph store snapshot -/

/-- An `(:Event)` node as matched by the Cypher query: possibly missing
embedding or start date, plus the payload fields the pipeline returns. -/
structure EventNode where
  name : Option Str
  description : Option Str
  embedding : Option (List ℝ)
  start_date : Option Date
  emotion : Option Str
  emotion_intensity : Option ℝ

/-- A `(:Claim)` node as matched by the Cypher query. -/
structure ClaimNode where
  content : Option Str
  source : Option Str
  embedding : Option (List ℝ)
  confidence : Option ℝ

/-- Snapshot of the graph store visible to
`get_relevant_events_and_claims`. -/
structure GraphDB where
  events : List EventNode
  claims : List ClaimNode

/-- One row of the Cypher `UNION` subquery (an event row or a claim row). -/
inductive PoolRow where
  | event (e : EventNode)
  | claim (c : ClaimNode)

/-- The Cypher `WHERE` clause of the event branch:
`n.embedding IS NOT NULL AND n.start_date <= date() AND CASE ... END`
(a `null` start date fails the comparison, as in Cypher). -/
def eventPoolFilter (mode : Option String) (current : Date) (e : EventNode) : Bool :=
  e.embedding.isSome &&
    (match e.start_date with
     | none => false
     | some sd =>
       sd.ble current &&
         (if mode = some "recent" then (current.subMonths 3).ble sd
          else if mode = some "latest" then (current.subDays 3).ble sd
          else if mode = some "historic" then sd.blt (current.subYears 50)
          else true))

/-- The candidate pool produced by the `CALL { ... UNION ... }` subquery:
events passing the date-range pre-filter, plus every claim that has an
embedding. -/
def candidatePool (db : GraphDB) (mode : Option String) (current : Date) : List PoolRow :=
  (db.events.filter (eventPoolFilter mode current)).map PoolRow.event
    ++ (db.claims.filter (fun c => c.embedding.isSome)).map PoolRow.claim

/-! ## Scoring -/

/-- Cypher `reduce(dot = 0.0, i IN range(0, size(v)-1) | dot + v[i]*q[i])`. -/
noncomputable def dotRange (v q : List ℝ) : ℝ :=
  ((List.range v.length).map (fun i => v.getD i 0 * q.getD i 0)).sum

/-- Cypher `reduce(l2 = 0.0, i IN range(0, size(v)-1) | l2 + v[i]^2)`. -/
noncomputable def sumSqRange (v : List ℝ) : ℝ :=
  ((List.range v.length).map (fun i => v.getD i 0 ^ 2)).sum

/-- Cosine similarity as computed in the Cypher query (dot product over the
candidate embedding divided by the product of the two Euclidean norms). -/
noncomputable def cosineSimilarity (emb q : List ℝ) : ℝ :=
  dotRange emb q / (Real.sqrt (sumSqRange emb) * Real.sqrt (sumSqRange q))

/-- Cypher `toFloat(duration.inDays(start_date, current_date).days) / 365.25`. -/
noncomputable def yearsAgo (sd current : Date) : ℝ :=
  ((current.toEpochDay - sd.toEpochDay : Int) : ℝ) / 365.25

/-- Coefficient `recent_coeff` of `get_relevant_events_and_claims`. -/
def recent_coeff : ℝ := 0.33

/-- Coefficient `historic_coeff` of `get_relevant_events_and_claims`. -/
def historic_coeff : ℝ := 50

/-- Coefficient `default_coeff` of `get_relevant_events_and_claims`. -/
def default_coeff : ℝ := 5

/-- The time-relevance `CASE` applied to an event with a known
`years_ago`, for each date-range mode. -/
noncomputable def timeRelevanceFun (mode : Option String) (y : ℝ) : ℝ :=
  if mode = some "recent" then Real.exp (-y * recent_coeff)
  else if mode = some "latest" then Real.exp (-y * recent_coeff)
  else if mode = some "historic" then 1 - Real.exp (-y / historic_coeff)
  else 1 / (1 + y / default_coeff)

/-- A scored candidate as returned to Python: node type plus the computed
`similarity`, `time_relevance`, `combined_score`, and passthrough fields. -/
structure ScoredItem where
  rtype : String
  similarity : ℝ
  time_relevance : ℝ
  combined_score : ℝ
  start_date : Option Date
  years_ago : Option ℝ
  emotion : Option Str
  emotion_intensity : Option ℝ
  confidence : Option ℝ

/-- Scoring of one pool row: cosine similarity, the time-relevance `CASE`
(`1` for claims, `0.5` for an event with an unknown date), and the combined
score `CASE` (`similarity * 0.7 + time_relevance * 0.3` for events, bare
similarity for claims). -/
noncomputable def scoreRow (q : List ℝ) (mode : Option String) (current : Date) :
    PoolRow → ScoredItem
  | .event e =>
    let sim := cosineSimilarity (e.embedding.getD []) q
    let tr := match e.start_date with
      | some sd => timeRelevanceFun mode (yearsAgo sd current)
      | none => 0.5
    { rtype := "Event", similarity := sim, time_relevance := tr,
      combined_score := sim * 0.7 + tr * 0.3,
      start_date := e.start_date,
      years_ago := e.start_date.map (fun sd => yearsAgo sd current),
      emotion := e.emotion, emotion_intensity := e.emotion_intensity,
      confidence := none }
  | .claim c =>
    let sim := cosineSimilarity (c.embedding.getD []) q
    { rtype := "Claim", similarity := sim, time_relevance := 1,
      combined_score := sim,
      start_date := none, years_ago := none,
      emotion := none, emotion_intensity := none,
      confidence := c.confidence }

/-- All pool rows, scored. -/
noncomputable def scoredCandidates (db : GraphDB) (q : List ℝ) (mode : Option String)
    (current : Date) : List ScoredItem :=
  (candidatePool db mode current).map (scoreRow q mode current)

/-- Cypher `WHERE similarity >= $similarity_threshold`. -/
noncomputable def aboveThreshold (th : ℝ) (l : List ScoredItem) : List ScoredItem :=
  l.filter (fun s => decide (th ≤ s.similarity))

/-- The full `get_relevant_events_and_claims` pipeline: threshold filter,
`ORDER BY combined_score DESC` (stable sort), per-type `COLLECT(...)
[0..$max_items]` with `max_items = max(max_events, max_claims)`, then the
Python-side `events[:max_events]` and `claims[:max_claims]`. -/
noncomputable def getRelevantEventsAndClaims (db : GraphDB) (query_embedding : List ℝ)
    (max_events max_claims : Nat) (similarity_threshold : ℝ)
    (query_date_range : Option String) (current : Date) :
    List ScoredItem × List ScoredItem :=
  let max_items := max max_events max_claims
  let sorted := List.insertionSort (fun a b => b.combined_score ≤ a.combined_score)
    (aboveThreshold similarity_threshold
      (scoredCandidates db query_embedding query_date_range current))
  let events := (sorted.filter (fun s => s.rtype == "Event")).take max_items
  let claims := (sorted.filter (fun s => s.rtype == "Claim")).take max_items
  (events.take max_events, claims.take max_claims)

/-! ## Text-excerpt retrieval (`get_relevant_chunks`) -/

/-- One entry of the result list of `get_relevant_chunks`. -/
structure ChunkResult where
  path : String
  content : Str
  similarity : ℝ

/-- Cosine similarity as computed with numpy in `get_relevant_chunks`
(`np.dot(q, c) / (norm(q) * norm(c))`). -/
noncomputable def npCosine (q c : List ℝ) : ℝ :=
  dotRange q c / (Real.sqrt (sumSqRange q) * Real.sqrt (sumSqRange c))

/-- The `get_relevant_chunks` pipeline over the pre-loaded
`chunk_embeddings` map and the file system (modelled as a partial map from
a path to the text-file content; a missing `.txt` file skips the entry):
threshold filter, similarity sort (descending, stable), `[:top_n]`. -/
noncomputable def getRelevantChunks (chunk_embeddings : List (String × List ℝ))
    (readTxt : String → Option Str) (query_embedding : List ℝ)
    (top_n : Nat) (similarity_threshold : ℝ) : List ChunkResult :=
  let relevant := chunk_embeddings.filterMap (fun p =>
    let sim := npCosine query_embedding p.2
    if similarity_threshold ≤ sim then
      let txt_path := p.1.replace ".json" ".txt"
      (readTxt txt_path).map (fun content =>
        { path := txt_path, content := content, similarity := sim })
    else none)
  (List.insertionSort (fun a b => b.similarity ≤ a.similarity) relevant).take top_n

/-! ## Context assembly (`format_query_with_context`) -/

/-- The fields of an event dict read by the assembler. -/
structure EventView where
  name : Option Str
  description : Option Str
  emotion : Option Str
  start_date : Option Date

/-- The fields of a claim ("idea") dict read by the assembler. -/
structure IdeaView where
  content : Option Str
  source : Option Str

/-- The fields of a retrieved chunk dict read by the assembler. -/
structure ChunkView where
  path : Str
  content : Str

/-- One concept relationship dict (`source`, `type`, `target`). -/
structure RelView where
  source : Str
  type : Str
  target : Str

/-- One conversation turn (`{user, ai}`). -/
structure TurnView where
  user : Str
  ai : Str

/-- Zero-padded decimal rendering, as in Python `str(datetime.date)`. -/
def padNat (width n : Nat) : String :=
  let s := toString n
  if s.length < width then String.mk (List.replicate (width - s.length) '0') ++ s else s

/-- Python `str(value)` for a `datetime.date` value (ISO `YYYY-MM-DD`). -/
def Date.render (d : Date) : Str :=
  (padNat 4 d.year.toNat ++ "-" ++ padNat 2 d.month ++ "-" ++ padNat 2 d.day).data

/-- Boolean lexicographic comparison of Python strings, used to model
`sorted(...)` on the emotion set. -/
def strLe : Str → Str → Bool
  | [], _ => true
  | _ :: _, [] => false
  | a :: as, b :: bs =>
    if a < b then true else if b < a then false else strLe as bs

/-- Python `sorted(set(...))`: deduplicate, then sort ascending. -/
def sortedEmotionSet (l : List Str) : List Str :=
  List.insertionSort (fun a b => strLe a b = true) l.dedup

/-- The `##  Concept Map` section body. -/
def relSection (rels : List RelView) : Str :=
  if rels.isEmpty then lit "No relevant concept relationships found.\n"
  else rels.foldl (fun acc r =>
    acc ++ r.source ++ lit " " ++ r.type ++ lit " " ++ r.target ++ lit ".\n") []

/-- The deduplicated, sorted emotion labels of the selected events. -/
def emotionGroups (events : List EventView) : List Str :=
  sortedEmotionSet (events.filterMap (fun e => e.emotion))

/-- The `## Memory` section body: one entry per event with optional
`emotion` and `start_date` fields. -/
def eventsSection (events : List EventView) : Str :=
  events.foldl (fun acc e =>
    acc ++ e.name.getD (lit "Unnamed Event") ++ lit ": "
      ++ e.description.getD (lit "No description.") ++ lit "\n"
      ++ (match e.emotion with
          | some v => lit "  emotion: " ++ v ++ lit "\n"
          | none => [])
      ++ (match e.start_date with
          | some v => lit "  start_date: " ++ v.render ++ lit "\n"
          | none => [])
      ++ lit "\n") []

/-- The `## Ideas` section body: one entry per claim with an optional
`source` field. -/
def ideasSection (ideas : List IdeaView) : Str :=
  ideas.foldl (fun acc i =>
    acc ++ i.content.getD (lit "Unnamed Idea") ++ lit "\n"
      ++ (match i.source with
          | some v => lit "  source: " ++ v ++ lit "\n"
          | none => [])
      ++ lit "\n") []

/-- The `## Knowledge From Books You Have Read` section body; the book name
is the third component of the chunk path. -/
def chunksSection (chunks : List ChunkView) : Str :=
  chunks.foldl (fun acc ch =>
    acc ++ lit "From " ++ ((ch.path.splitOn '/').getD 2 []) ++ lit ":\n\n"
      ++ ch.content ++ lit "\n\n") []

/-- The `# Chain-of-Thoughts Reasoning` section body. -/
def cotSection (responses : List Str) : Str :=
  responses.foldl (fun acc r => acc ++ r ++ lit "\n") []

/-- The full `context` string assembled by `format_query_with_context`
before truncation, with the chain-of-thought responses supplied as data
(they are fetched before this point in the code). -/
def assembleContext (events : List EventView) (ideas : List IdeaView)
    (relevant_chunks : List ChunkView) (cot_responses : List Str)
    (concept_relationships : List RelView) : Str :=
  lit "# Information From Your Mind\n\n"
    ++ lit "##  Concept Map\n\n" ++ relSection concept_relationships
    ++ lit "\n## Emotional Context\n"
    ++ (List.intercalate (lit ", ") (emotionGroups events)) ++ lit ".\n\n"
    ++ lit "## Memory\n" ++ eventsSection events
    ++ lit "## Ideas\n" ++ ideasSection ideas
    ++ lit "## Knowledge From Books You Have Read\n\n" ++ chunksSection relevant_chunks
    ++ lit "# Chain-of-Thoughts Reasoning\n" ++ cotSection cot_responses

/-- The truncation marker appended by `format_query_with_context`. -/
def truncationMarker : Str := lit "...[truncated]"

/-- The truncation step: `if len(context) > max_context_length: context =
context[:max_context_length] + "...[truncated]"`. -/
def truncateContext (context : Str) (max_context_length : Nat) : Str :=
  if context.length > max_context_length then
    context.take max_context_length ++ truncationMarker
  else context

/-- The conversation-history block: all turns except the last, rendered as
alternating `User:` / `AI:` lines. -/
def conversationContext (history : List TurnView) : Str :=
  List.intercalate (lit "\n")
    (history.dropLast.map (fun t => lit "User: " ++ t.user ++ lit "\nAI: " ++ t.ai))

/-- The value returned by `format_query_with_context`: the (possibly
truncated) context embedded in the fixed f-string scaffolding, followed by
the conversation history and the current query. -/
def formatQueryWithContext (query : Str) (conversation_history : List TurnView)
    (events : List EventView) (ideas : List IdeaView)
    (relevant_chunks : List ChunkView) (cot_responses : List Str)
    (concept_relationships : List RelView) (max_context_length : Nat) : Str :=
  let context := truncateContext
    (assembleContext events ideas relevant_chunks cot_responses concept_relationships)
    max_context_length
  lit "\n\n    " ++ context
    ++ lit "\n    \n    # Conversation History\n    "
    ++ conversationContext conversation_history
    ++ lit "\n\n    User: " ++ query
    ++ lit "\n\n    AI: \n    "

/-! ## Query-element extraction (`extract_query_elements`) -/

/-- One chain-of-thought sub-question with its reasoning types. -/
structure CotQuestion where
  question : Str
  reasoning_types : List Str
deriving DecidableEq

/-- The optional-count shape of a parsed `ideal_mix` JSON object. -/
structure IdealMixSpec where
  events : Option Nat
  claims_ideas : Option Nat
  chunks : Option Nat
deriving DecidableEq

/-- The shape `json.loads` can deliver for the extraction response: every
expected key may be missing. -/
structure RawQueryElements where
  key_entities : Option (List Str)
  key_concepts : Option (List Str)
  time_reference : Option Str
  chain_of_thought_questions : Option (List CotQuestion)

/-- The dictionary returned by `extract_query_elements` after
default-filling (the fallback branch also carries an explicit
`ideal_mix`). -/
structure QueryElements where
  key_entities : List Str
  key_concepts : List Str
  time_reference : Option Str
  chain_of_thought_questions : List CotQuestion
  ideal_mix : Option IdealMixSpec

/-- Python `str.title()` on a character list: a letter after a non-letter
is uppercased, any other letter is lowercased. -/
def titleCaseAux : Bool → List Char → List Char
  | _, [] => []
  | prevAlpha, c :: cs =>
    (if c.isAlpha then (if prevAlpha then c.toLower else c.toUpper) else c)
      :: titleCaseAux c.isAlpha cs

/-- Python `str.title()`. -/
def titleCase (s : Str) : Str := titleCaseAux false s

/-- `extract_query_elements`, from the structured-parse boundary onwards.
The input models the outcome of `json.loads` on the cleaned response:
`none` is a `JSONDecodeError`. On success, missing keys are defaulted, key
concepts are capped at 10 when no entities were found and then
title-cased, and the sub-questions are capped at 3; no `ideal_mix` key is
produced. On failure, the explicit fallback dictionary is returned,
including an `ideal_mix` with all-zero counts. -/
def extractQueryElements (parsed : Option RawQueryElements) : QueryElements :=
  match parsed with
  | some raw =>
    let ents := raw.key_entities.getD []
    let cons := raw.key_concepts.getD []
    let cons := if ents.isEmpty then cons.take 10 else cons
    { key_entities := ents
      key_concepts := cons.map titleCase
      time_reference := raw.time_reference
      chain_of_thought_questions := (raw.chain_of_thought_questions.getD []).take 3
      ideal_mix := none }
  | none =>
    { key_entities := []
      key_concepts := []
      time_reference := none
      chain_of_thought_questions := []
      ideal_mix := some { events := some 0, claims_ideas := some 0, chunks := some 0 } }

/-- The resolved retrieval-mix budgets. -/
structure IdealMix where
  events : Nat
  claims_ideas : Nat
  chunks : Nat
deriving DecidableEq

/-- The `default_ideal_mix` dictionary of `ask_main`. -/
def default_ideal_mix : IdealMix := ⟨27, 27, 3⟩

/-- How `ask_main` resolves the retrieval mix:
`ideal_mix = query_elements.get("ideal_mix", {})`, then each count is read
with its default from `default_ideal_mix`. -/
def resolveIdealMix (qe : QueryElements) : IdealMix :=
  let m := qe.ideal_mix.getD ⟨none, none, none⟩
  ⟨m.events.getD default_ideal_mix.events,
   m.claims_ideas.getD default_ideal_mix.claims_ideas,
   m.chunks.getD default_ideal_mix.chunks⟩

/-! ## Streaming fallbacks (`call_llm`, `ask_main`) -/

/-- The fallback chunk yielded by `call_llm` when the provider raises. -/
def llmErrorMessage : Str :=
  lit "An error occurred while processing your request. Please try again."

/-- The fallback chunk yielded by `ask_main` when any step raises. -/
def askMainErrorMessage : Str :=
  lit ("I\x27m sorry, but I encountered an error while processing your query. "
    ++ "Please try again or rephrase your question.")

/-- The chunk stream produced by `call_llm`: the chunks the provider
yielded before finishing or raising; when it raised, the single fallback
message is yielded after them. -/
def callLLMOutput (chunks : List Str) (failure : Option Str) : List Str :=
  match failure with
  | some _ => chunks ++ [llmErrorMessage]
  | none => chunks

/-- The chunk stream `ask_main` yields, given the outcome of its guarded
body: on an exception the single fallback message replaces the answer. -/
def askMainStream (body : Except Str (List Str)) : List Str :=
  match body with
  | .ok chunks => chunks
  | .error _ => [askMainErrorMessage]

/-! ## Chain-of-thought fan-out (`process_all_chain_of_thought_questions`) -/

/-- One sub-question task of the fan-out, described by the outcomes of its
external calls: embedding computation and graph retrieval either succeed or
raise, and the reasoning LLM call yields some chunks and then either
finishes or raises (the retrieved data only feeds the LLM prompt, so only
the success of those calls matters for the returned answer). -/
structure SubQuestionRun where
  question : Str
  embeddingOutcome : Except Str Unit
  retrievalOutcome : Except Str Unit
  llmChunks : List Str
  llmFailure : Option Str

/-- The answer string `process_chain_of_thought_question` builds when it
reaches the LLM call: `call_llm` swallows a provider error into the
response text, and the result is wrapped as a markdown section. -/
def cotAnswer (r : SubQuestionRun) : Str :=
  lit "\n## " ++ r.question ++ lit "\x27\n\n"
    ++ (callLLMOutput r.llmChunks r.llmFailure).flatten ++ lit "\n"

/-- `process_chain_of_thought_question`: the embedding computation and the
graph read are unguarded, so their exceptions propagate; the LLM call is
guarded inside `call_llm`. -/
def processChainOfThoughtQuestion (r : SubQuestionRun) : Except Str Str :=
  match r.embeddingOutcome with
  | .error e => .error e
  | .ok _ =>
    match r.retrievalOutcome with
    | .error e => .error e
    | .ok _ => .ok (cotAnswer r)

/-- `process_all_chain_of_thought_questions`: `asyncio.gather` without
`return_exceptions` — the first raised exception propagates to the caller
and no answer list is produced. -/
def processAllChainOfThoughtQuestions (runs : List SubQuestionRun) :
    Except Str (List Str) :=
  runs.mapM processChainOfThoughtQuestion

/-! ## Index-preserving join of `asyncio.gather` -/

/-- The result slots of `asyncio.gather`: starting from an unfilled slot
per task, each completion (in completion order) writes the answer of the
task with that input index into that task's own slot. -/
def completeInto (answers : List Str) (order : List Nat) : List (Option Str) :=
  order.foldl (fun slots i => slots.set i answers[i]?)
    (List.replicate answers.length none)

/-- The list `asyncio.gather` returns: the slots in input-index order, read
after all completions. -/
def gatherJoin (answers : List Str) (order : List Nat) : List Str :=
  (completeInto answers order).map (fun o => o.getD [])

/-! ## Concrete store snapshots used to instantiate the theorems -/

/-- A concrete event node (one-dimensional embedding, start 2019-01-01). -/
noncomputable def ev1 : EventNode :=
  { name := some (lit "E1"), description := some (lit "d"),
    embedding := some [(1 : ℝ)], start_date := some ⟨2019, 1, 1⟩,
    emotion := none, emotion_intensity := none }

/-- A concrete event node dated 2019-12-15 (inside a 3-month window before
2020-01-01). -/
noncomputable def ev2 : EventNode :=
  { name := some (lit "E2"), description := some (lit "d"),
    embedding := some [(1 : ℝ)], start_date := some ⟨2019, 12, 15⟩,
    emotion := none, emotion_intensity := none }

/-- A concrete claim node with an embedding. -/
noncomputable def cl1 : ClaimNode :=
  { content := some (lit "c"), source := none,
    embedding := some [(1 : ℝ)], confidence := none }

/-- A store with one event and no claims. -/
noncomputable def db1 : GraphDB := ⟨[ev1], []⟩

/-- A store with no events and one claim. -/
noncomputable def db2 : GraphDB := ⟨[], [cl1]⟩

/-- A store with one recent event and one claim. -/
noncomputable def db3 : GraphDB := ⟨[ev2], [cl1]⟩

/-- A concrete one-dimensional query embedding. -/
noncomputable def qv1 : List ℝ := [1]

/-- A concrete current date. -/
def cur1 : Date := ⟨2020, 1, 1⟩

/-! ## Pipeline membership lemmas -/

theorem mem_candidatePool_event {db : GraphDB} {mode : Option String} {current : Date}
    {e : EventNode} :
    PoolRow.event e ∈ candidatePool db mode current ↔
      e ∈ db.events ∧ eventPoolFilter mode current e = true := by
  constructor
  · intro h
    rcases List.mem_append.mp h with h | h
    · rcases List.mem_map.mp h with ⟨e', he', heq⟩
      obtain ⟨he, hf⟩ := List.mem_filter.mp he'
      cases heq
      exact ⟨he, hf⟩
    · rcases List.mem_map.mp h with ⟨c, _, heq⟩
      cases heq
  · rintro ⟨he, hf⟩
    exact List.mem_append.mpr
      (Or.inl (List.mem_map.mpr ⟨e, List.mem_filter.mpr ⟨he, hf⟩, rfl⟩))

theorem mem_candidatePool_claim {db : GraphDB} {mode : Option String} {current : Date}
    {c : ClaimNode} :
    PoolRow.claim c ∈ candidatePool db mode current ↔
      c ∈ db.claims ∧ c.embedding.isSome = true := by
  constructor
  · intro h
    rcases List.mem_append.mp h with h | h
    · rcases List.mem_map.mp h with ⟨e, _, heq⟩
      cases heq
    · rcases List.mem_map.mp h with ⟨c', hc', heq⟩
      obtain ⟨hc, hf⟩ := List.mem_filter.mp hc'
      cases heq
      exact ⟨hc, hf⟩
  · rintro ⟨hc, hf⟩
    exact List.mem_append.mpr
      (Or.inr (List.mem_map.mpr ⟨c, List.mem_filter.mpr ⟨hc, hf⟩, rfl⟩))

theorem eventPoolFilter_spec {mode : Option String} {current : Date} {e : EventNode}
    (h : eventPoolFilter mode current e = true) :
    e.embedding.isSome = true ∧ ∃ sd, e.start_date = some sd ∧ sd.ble current = true ∧
      (mode = some "recent" → (current.subMonths 3).ble sd = true) ∧
      (mode = some "latest" → (current.subDays 3).ble sd = true) ∧
      (mode = some "historic" → sd.blt (current.subYears 50) = true) := by
  unfold eventPoolFilter at h
  rw [Bool.and_eq_true] at h
  obtain ⟨hemb, hrest⟩ := h
  refine ⟨hemb, ?_⟩
  cases hsd : e.start_date with
  | none => rw [hsd] at hrest; cases hrest
  | some sd =>
    rw [hsd] at hrest
    rw [Bool.and_eq_true] at hrest
    obtain ⟨hble, hmode⟩ := hrest
    refine ⟨sd, rfl, hble, ?_, ?_, ?_⟩
    · intro hm; rw [hm] at hmode; simpa using hmode
    · intro hm; rw [hm] at hmode; simpa using hmode
    · intro hm; rw [hm] at hmode; simpa using hmode

theorem mem_ranked_events {db : GraphDB} {q : List ℝ} {maxE maxC : Nat} {th : ℝ}
    {mode : Option String} {current : Date} {s : ScoredItem}
    (h : s ∈ (getRelevantEventsAndClaims db q maxE maxC th mode current).1) :
    th ≤ s.similarity ∧ ∃ e, e ∈ db.events ∧ eventPoolFilter mode current e = true ∧
      s = scoreRow q mode current (PoolRow.event e) := by
  simp only [getRelevantEventsAndClaims] at h
  have h1 := List.mem_of_mem_take h
  have h2 := List.mem_of_mem_take h1
  obtain ⟨hsort, hty⟩ := List.mem_filter.mp h2
  have h3 := (List.mem_insertionSort _).mp hsort
  simp only [aboveThreshold] at h3
  obtain ⟨hmem, hdec⟩ := List.mem_filter.mp h3
  have hth : th ≤ s.similarity := of_decide_eq_true hdec
  simp only [scoredCandidates] at hmem
  obtain ⟨r, hr, hsr⟩ := List.mem_map.mp hmem
  cases r with
  | claim c =>
    rw [← hsr] at hty
    simp [scoreRow] at hty
  | event e =>
    obtain ⟨he, hf⟩ := mem_candidatePool_event.mp hr
    exact ⟨hth, e, he, hf, hsr.symm⟩

theorem mem_ranked_claims {db : GraphDB} {q : List ℝ} {maxE maxC : Nat} {th : ℝ}
    {mode : Option String} {current : Date} {s : ScoredItem}
    (h : s ∈ (getRelevantEventsAndClaims db q maxE maxC th mode current).2) :
    th ≤ s.similarity ∧ ∃ c, c ∈ db.claims ∧ c.embedding.isSome = true ∧
      s = scoreRow q mode current (PoolRow.claim c) := by
  simp only [getRelevantEventsAndClaims] at h
  have h1 := List.mem_of_mem_take h
  have h2 := List.mem_of_mem_take h1
  obtain ⟨hsort, hty⟩ := List.mem_filter.mp h2
  have h3 := (List.mem_insertionSort _).mp hsort
  simp only [aboveThreshold] at h3
  obtain ⟨hmem, hdec⟩ := List.mem_filter.mp h3
  have hth : th ≤ s.similarity := of_decide_eq_true hdec
  simp only [scoredCandidates] at hmem
  obtain ⟨r, hr, hsr⟩ := List.mem_map.mp hmem
  cases r with
  | event e =>
    rw [← hsr] at hty
    simp [scoreRow] at hty
  | claim c =>
    obtain ⟨hc, hf⟩ := mem_candidatePool_claim.mp hr
    exact ⟨hth, c, hc, hf, hsr.symm⟩

/-! ## Concrete pipeline evaluations -/

theorem cosineSimilarity_one : cosineSimilarity [(1 : ℝ)] [(1 : ℝ)] = 1 := by
  have hs : sumSqRange [(1 : ℝ)] = 1 := by
    simp [sumSqRange, List.range_succ]
  have hd : dotRange [(1 : ℝ)] [(1 : ℝ)] = 1 := by
    simp [dotRange, List.range_succ]
  rw [cosineSimilarity, hs, hd, Real.sqrt_one]
  norm_num

theorem scoreRow_ev1_similarity :
    (scoreRow qv1 none cur1 (PoolRow.event ev1)).similarity = 1 := by
  simp [scoreRow, ev1, qv1, cosineSimilarity_one]

theorem scoreRow_cl1_similarity :
    (scoreRow qv1 none cur1 (PoolRow.claim cl1)).similarity = 1 := by
  simp [scoreRow, cl1, qv1, cosineSimilarity_one]

theorem pool_db1 : candidatePool db1 none cur1 = [PoolRow.event ev1] := rfl

theorem pool_db2 : candidatePool db2 none cur1 = [PoolRow.claim cl1] := rfl

theorem pool_db3 :
    candidatePool db3 (some "recent") cur1 = [PoolRow.event ev2, PoolRow.claim cl1] := rfl

theorem ranked_db1 :
    (getRelevantEventsAndClaims db1 qv1 20 20 (0.3 : ℝ) none cur1).1
      = [scoreRow qv1 none cur1 (PoolRow.event ev1)] := by
  have hsc : scoredCandidates db1 qv1 none cur1
      = [scoreRow qv1 none cur1 (PoolRow.event ev1)] := by
    rw [scoredCandidates, pool_db1]
    rfl
  have hdec : decide ((0.3 : ℝ) ≤ (scoreRow qv1 none cur1 (PoolRow.event ev1)).similarity)
      = true := by
    rw [decide_eq_true_eq, scoreRow_ev1_similarity]
    norm_num
  have hth : aboveThreshold (0.3 : ℝ) (scoredCandidates db1 qv1 none cur1)
      = [scoreRow qv1 none cur1 (PoolRow.event ev1)] := by
    rw [hsc, aboveThreshold]
    simp [List.filter_cons, hdec]
  simp only [getRelevantEventsAndClaims, hth]
  rfl

theorem ranked_db2 :
    (getRelevantEventsAndClaims db2 qv1 20 20 (0.3 : ℝ) none cur1).2
      = [scoreRow qv1 none cur1 (PoolRow.claim cl1)] := by
  have hsc : scoredCandidates db2 qv1 none cur1
      = [scoreRow qv1 none cur1 (PoolRow.claim cl1)] := by
    rw [scoredCandidates, pool_db2]
    rfl
  have hdec : decide ((0.3 : ℝ) ≤ (scoreRow qv1 none cur1 (PoolRow.claim cl1)).similarity)
      = true := by
    rw [decide_eq_true_eq, scoreRow_cl1_similarity]
    norm_num
  have hth : aboveThreshold (0.3 : ℝ) (scoredCandidates db2 qv1 none cur1)
      = [scoreRow qv1 none cur1 (PoolRow.claim cl1)] := by
    rw [hsc, aboveThreshold]
    simp [List.filter_cons, hdec]
  simp only [getRelevantEventsAndClaims, hth]
  rfl

/-! ## Claims about the ranker -/

/-- Claim C1: for every candidate retained by the ranker, an event's
time_relevance equals `exp(-years_ago * 0.33)` in recent or latest mode,
`1 - exp(-years_ago / 50)` in historic mode, and `1 / (1 + years_ago / 5)`
in unspecified mode, with `years_ago` the fractional number of years
between the event's start date and the current date; a claim's
time_relevance equals 1; an event's combined score equals
`0.7 * similarity + 0.3 * time_relevance` and a claim's combined score
equals its raw similarity. -/
theorem ranker_time_relevance_and_combined_score :
    ∀ (db : GraphDB) (q : List ℝ) (max_events max_claims : Nat) (th : ℝ)
      (mode : Option String) (current : Date),
      (∀ s ∈ (getRelevantEventsAndClaims db q max_events max_claims th mode current).1,
        ∃ sd, s.start_date = some sd ∧
          ((mode = some "recent" ∨ mode = some "latest") →
            s.time_relevance = Real.exp (-(yearsAgo sd current) * 0.33)) ∧
          (mode = some "historic" →
            s.time_relevance = 1 - Real.exp (-(yearsAgo sd current) / 50)) ∧
          (mode = none →
            s.time_relevance = 1 / (1 + yearsAgo sd current / 5)) ∧
          s.combined_score = 0.7 * s.similarity + 0.3 * s.time_relevance) ∧
      (∀ s ∈ (getRelevantEventsAndClaims db q max_events max_claims th mode current).2,
        s.time_relevance = 1 ∧ s.combined_score = s.similarity) := by
  intro db q maxE maxC th mode current
  constructor
  · intro s hs
    obtain ⟨-, e, -, hf, hse⟩ := mem_ranked_events hs
    obtain ⟨-, sd, hsd, -, -, -, -⟩ := eventPoolFilter_spec hf
    subst hse
    refine ⟨sd, ?_, ?_, ?_, ?_, ?_⟩
    · simp [scoreRow, hsd]
    · rintro (hm | hm) <;> subst hm <;>
        simp [scoreRow, hsd, timeRelevanceFun, recent_coeff]
    · intro hm
      subst hm
      simp [scoreRow, hsd, timeRelevanceFun, historic_coeff]
    · intro hm
      subst hm
      simp [scoreRow, hsd, timeRelevanceFun, default_coeff]
    · simp only [scoreRow]
      ring
  · intro s hs
    obtain ⟨-, c, -, -, hsc⟩ := mem_ranked_claims hs
    subst hsc
    exact ⟨rfl, rfl⟩

/-- Witness for C1, at a store with one event (similarity 1, unspecified
mode) and a store with one claim. -/
theorem ranker_time_relevance_and_combined_score_witness :
    (∃ sd, (scoreRow qv1 none cur1 (PoolRow.event ev1)).start_date = some sd ∧
      ((none = some "recent" ∨ (none : Option String) = some "latest") →
        (scoreRow qv1 none cur1 (PoolRow.event ev1)).time_relevance
          = Real.exp (-(yearsAgo sd cur1) * 0.33)) ∧
      ((none : Option String) = some "historic" →
        (scoreRow qv1 none cur1 (PoolRow.event ev1)).time_relevance
          = 1 - Real.exp (-(yearsAgo sd cur1) / 50)) ∧
      ((none : Option String) = none →
        (scoreRow qv1 none cur1 (PoolRow.event ev1)).time_relevance
          = 1 / (1 + yearsAgo sd cur1 / 5)) ∧
      (scoreRow qv1 none cur1 (PoolRow.event ev1)).combined_score
        = 0.7 * (scoreRow qv1 none cur1 (PoolRow.event ev1)).similarity
          + 0.3 * (scoreRow qv1 none cur1 (PoolRow.event ev1)).time_relevance) ∧
    ((scoreRow qv1 none cur1 (PoolRow.claim cl1)).time_relevance = 1 ∧
      (scoreRow qv1 none cur1 (PoolRow.claim cl1)).combined_score
        = (scoreRow qv1 none cur1 (PoolRow.claim cl1)).similarity) :=
  ⟨(ranker_time_relevance_and_combined_score db1 qv1 20 20 0.3 none cur1).1 _
      (by rw [ranked_db1]; exact List.mem_singleton.mpr rfl),
   (ranker_time_relevance_and_combined_score db2 qv1 20 20 0.3 none cur1).2 _
      (by rw [ranked_db2]; exact List.mem_singleton.mpr rfl)⟩

/-- Claim C2: every candidate item appearing in a ranked result has raw
similarity at least the configured threshold, and no event whose start
date is after the current date appears in any ranked result (every ranked
event carries a start date that is at most the current date). -/
theorem ranker_threshold_and_no_future_events :
    ∀ (db : GraphDB) (q : List ℝ) (max_events max_claims : Nat) (th : ℝ)
      (mode : Option String) (current : Date),
      (∀ s ∈ (getRelevantEventsAndClaims db q max_events max_claims th mode current).1,
        th ≤ s.similarity ∧ ∃ sd, s.start_date = some sd ∧ sd.ble current = true) ∧
      (∀ s ∈ (getRelevantEventsAndClaims db q max_events max_claims th mode current).2,
        th ≤ s.similarity) := by
  intro db q maxE maxC th mode current
  constructor
  · intro s hs
    obtain ⟨hth, e, -, hf, hse⟩ := mem_ranked_events hs
    obtain ⟨-, sd, hsd, hble, -, -, -⟩ := eventPoolFilter_spec hf
    subst hse
    exact ⟨hth, sd, by simp [scoreRow, hsd], hble⟩
  · intro s hs
    exact (mem_ranked_claims hs).1

/-- Witness for C2, at a store with one event and a store with one
claim, threshold 0.3. -/
theorem ranker_threshold_and_no_future_events_witness :
    ((0.3 : ℝ) ≤ (scoreRow qv1 none cur1 (PoolRow.event ev1)).similarity ∧
      ∃ sd, (scoreRow qv1 none cur1 (PoolRow.event ev1)).start_date = some sd ∧
        sd.ble cur1 = true) ∧
    (0.3 : ℝ) ≤ (scoreRow qv1 none cur1 (PoolRow.claim cl1)).similarity :=
  ⟨(ranker_threshold_and_no_future_events db1 qv1 20 20 0.3 none cur1).1 _
      (by rw [ranked_db1]; exact List.mem_singleton.mpr rfl),
   (ranker_threshold_and_no_future_events db2 qv1 20 20 0.3 none cur1).2 _
      (by rw [ranked_db2]; exact List.mem_singleton.mpr rfl)⟩

/-- Claim C3: the returned ranked event list has at most `max_events`
items, the ranked claim list at most `max_claims` items, and the retrieved
text-excerpt list at most `top_n` items, for every candidate pool. -/
theorem ranked_lists_and_excerpts_respect_caps :
    ∀ (db : GraphDB) (q : List ℝ) (max_events max_claims : Nat) (th : ℝ)
      (mode : Option String) (current : Date)
      (chunk_embeddings : List (String × List ℝ)) (readTxt : String → Option Str)
      (qc : List ℝ) (top_n : Nat) (thc : ℝ),
      (getRelevantEventsAndClaims db q max_events max_claims th mode current).1.length
          ≤ max_events ∧
      (getRelevantEventsAndClaims db q max_events max_claims th mode current).2.length
          ≤ max_claims ∧
      (getRelevantChunks chunk_embeddings readTxt qc top_n thc).length ≤ top_n := by
  intro db q maxE maxC th mode current store readTxt qc topn thc
  refine ⟨?_, ?_, ?_⟩
  · simp only [getRelevantEventsAndClaims]
    exact List.length_take_le _ _
  · simp only [getRelevantEventsAndClaims]
    exact List.length_take_le _ _
  · simp only [getRelevantChunks]
    exact List.length_take_le _ _

/-- Claim C8: for each fixed date-range mode, an event's time relevance is
strictly monotone in `years_ago` on `years_ago ≥ 0`: strictly decreasing
in recent, latest and unspecified modes, strictly increasing in historic
mode. -/
theorem time_relevance_strictly_monotone :
    ∀ y₁ y₂ : ℝ, 0 ≤ y₁ → y₁ < y₂ →
      timeRelevanceFun (some "recent") y₂ < timeRelevanceFun (some "recent") y₁ ∧
      timeRelevanceFun (some "latest") y₂ < timeRelevanceFun (some "latest") y₁ ∧
      timeRelevanceFun none y₂ < timeRelevanceFun none y₁ ∧
      timeRelevanceFun (some "historic") y₁ < timeRelevanceFun (some "historic") y₂ := by
  intro y₁ y₂ h0 hlt
  have hrec : ∀ y : ℝ, timeRelevanceFun (some "recent") y = Real.exp (-y * 0.33) := by
    intro y
    simp [timeRelevanceFun, recent_coeff]
  have hlat : ∀ y : ℝ, timeRelevanceFun (some "latest") y = Real.exp (-y * 0.33) := by
    intro y
    simp [timeRelevanceFun, recent_coeff]
  have hnone : ∀ y : ℝ, timeRelevanceFun none y = 1 / (1 + y / 5) := by
    intro y
    simp [timeRelevanceFun, default_coeff]
  have hhist : ∀ y : ℝ, timeRelevanceFun (some "historic") y = 1 - Real.exp (-y / 50) := by
    intro y
    simp [timeRelevanceFun, historic_coeff]
  have hexp : Real.exp (-y₂ * 0.33) < Real.exp (-y₁ * 0.33) := by
    rw [Real.exp_lt_exp]
    nlinarith
  refine ⟨by rw [hrec, hrec]; exact hexp, by rw [hlat, hlat]; exact hexp, ?_, ?_⟩
  · rw [hnone, hnone]
    have hpos : (0 : ℝ) < 1 + y₁ / 5 := by linarith
    have hmono : 1 + y₁ / 5 < 1 + y₂ / 5 := by linarith
    exact one_div_lt_one_div_of_lt hpos hmono
  · rw [hhist, hhist]
    have hexp2 : Real.exp (-y₂ / 50) < Real.exp (-y₁ / 50) := by
      rw [Real.exp_lt_exp]
      nlinarith
    linarith

/-- Witness for C8, at `years_ago` 0 and 1. -/
theorem time_relevance_strictly_monotone_witness :
    timeRelevanceFun (some "recent") 1 < timeRelevanceFun (some "recent") 0 ∧
    timeRelevanceFun (some "latest") 1 < timeRelevanceFun (some "latest") 0 ∧
    timeRelevanceFun none 1 < timeRelevanceFun none 0 ∧
    timeRelevanceFun (some "historic") 0 < timeRelevanceFun (some "historic") 1 :=
  time_relevance_strictly_monotone 0 1 (by norm_num) (by norm_num)

/-- Claim C10: the date-range pre-filter of the candidate pool applies
only to events: in recent mode every pooled event is at most 3 months
old, in latest mode at most 3 days old, in historic mode more than 50
years old, yet in every mode every claim with an embedding enters the
candidate pool and is scored. -/
theorem pool_prefilter_events_only :
    ∀ (db : GraphDB) (q : List ℝ) (mode : Option String) (current : Date),
      (∀ e : EventNode, PoolRow.event e ∈ candidatePool db (some "recent") current →
        ∃ sd, e.start_date = some sd ∧ (current.subMonths 3).ble sd = true ∧
          sd.ble current = true) ∧
      (∀ e : EventNode, PoolRow.event e ∈ candidatePool db (some "latest") current →
        ∃ sd, e.start_date = some sd ∧ (current.subDays 3).ble sd = true ∧
          sd.ble current = true) ∧
      (∀ e : EventNode, PoolRow.event e ∈ candidatePool db (some "historic") current →
        ∃ sd, e.start_date = some sd ∧ sd.blt (current.subYears 50) = true) ∧
      (∀ c ∈ db.claims, c.embedding.isSome = true →
        PoolRow.claim c ∈ candidatePool db mode current ∧
        scoreRow q mode current (PoolRow.claim c) ∈ scoredCandidates db q mode current) := by
  intro db q mode current
  refine ⟨?_, ?_, ?_, ?_⟩
  · intro e he
    obtain ⟨-, hf⟩ := mem_candidatePool_event.mp he
    obtain ⟨-, sd, hsd, hble, hrec, -, -⟩ := eventPoolFilter_spec hf
    exact ⟨sd, hsd, hrec rfl, hble⟩
  · intro e he
    obtain ⟨-, hf⟩ := mem_candidatePool_event.mp he
    obtain ⟨-, sd, hsd, hble, -, hlat, -⟩ := eventPoolFilter_spec hf
    exact ⟨sd, hsd, hlat rfl, hble⟩
  · intro e he
    obtain ⟨-, hf⟩ := mem_candidatePool_event.mp he
    obtain ⟨-, sd, hsd, -, -, -, hhist⟩ := eventPoolFilter_spec hf
    exact ⟨sd, hsd, hhist rfl⟩
  · intro c hc hemb
    have hmem : PoolRow.claim c ∈ candidatePool db mode current :=
      mem_candidatePool_claim.mpr ⟨hc, hemb⟩
    refine ⟨hmem, ?_⟩
    rw [scoredCandidates]
    exact List.mem_map.mpr ⟨_, hmem, rfl⟩

/-- Witness for C10, at a store with one recent event and one claim in
recent mode. -/
theorem pool_prefilter_events_only_witness :
    (∃ sd, ev2.start_date = some sd ∧ (cur1.subMonths 3).ble sd = true ∧
      sd.ble cur1 = true) ∧
    (PoolRow.claim cl1 ∈ candidatePool db3 (some "recent") cur1 ∧
      scoreRow qv1 (some "recent") cur1 (PoolRow.claim cl1)
        ∈ scoredCandidates db3 qv1 (some "recent") cur1) :=
  ⟨(pool_prefilter_events_only db3 qv1 (some "recent") cur1).1 ev2
      (by rw [pool_db3]; exact List.mem_cons_self _ _),
   (pool_prefilter_events_only db3 qv1 (some "recent") cur1).2.2.2 cl1
      (List.mem_singleton.mpr rfl) rfl⟩

/-! ## Claims about context assembly -/

set_option maxRecDepth 40000 in
/-- Claim C4 counterexample: with a 10-character budget and an over-budget
assembled context, the prompt returned by `format_query_with_context` is
longer than the budget plus the marker and does not end with the
truncation marker (the truncation applies to the context section only, and
the conversation history, query and fixed scaffolding are appended after
it). -/
theorem context_budget_claim_counterexample :
    10 < (assembleContext [] [] [] [] []).length ∧
    10 + truncationMarker.length
        < (formatQueryWithContext (lit "Q") [] [] [] [] [] [] 10).length ∧
    truncationMarker.isSuffixOf (formatQueryWithContext (lit "Q") [] [] [] [] [] [] 10)
        = false := by
  refine ⟨by decide, by decide, by decide⟩

/-- Claim C4 as amended: when the assembled context exceeds the budget,
the context section is cut at exactly the budget with the marker appended
(its length is budget plus marker length, the cut part is an initial
segment of the pre-truncation context, and the section ends with the
marker); the returned prompt embeds this truncated section but appends the
conversation history, the current query and fixed scaffolding after it, so
the returned prompt itself is not bounded by the budget and need not end
with the marker. -/
theorem context_truncation_bounds_context_section :
    ∀ (events : List EventView) (ideas : List IdeaView) (chunks : List ChunkView)
      (cot : List Str) (rels : List RelView) (maxLen : Nat),
      maxLen < (assembleContext events ideas chunks cot rels).length →
      truncateContext (assembleContext events ideas chunks cot rels) maxLen
          = (assembleContext events ideas chunks cot rels).take maxLen
            ++ truncationMarker ∧
      (truncateContext (assembleContext events ideas chunks cot rels) maxLen).length
          = maxLen + truncationMarker.length ∧
      (∃ rest, (assembleContext events ideas chunks cot rels).take maxLen ++ rest
          = assembleContext events ideas chunks cot rels) ∧
      truncationMarker.isSuffixOf
          (truncateContext (assembleContext events ideas chunks cot rels) maxLen)
          = true ∧
      ∀ (query : Str) (history : List TurnView),
        formatQueryWithContext query history events ideas chunks cot rels maxLen
          = lit "\n\n    "
              ++ truncateContext (assembleContext events ideas chunks cot rels) maxLen
              ++ lit "\n    \n    # Conversation History\n    "
              ++ conversationContext history
              ++ lit "\n\n    User: " ++ query
              ++ lit "\n\n    AI: \n    " := by
  intro events ideas chunks cot rels maxLen h
  have ht : truncateContext (assembleContext events ideas chunks cot rels) maxLen
      = (assembleContext events ideas chunks cot rels).take maxLen
        ++ truncationMarker := by
    rw [truncateContext, if_pos h]
  refine ⟨ht, ?_, ?_, ?_, ?_⟩
  · rw [ht, List.length_append, List.length_take]
    omega
  · exact ⟨(assembleContext events ideas chunks cot rels).drop maxLen,
      List.take_append_drop _ _⟩
  · rw [ht]
    simp
  · intro query history
    rfl

set_option maxRecDepth 40000 in
/-- Witness for the amended C4, at empty inputs and budget 10. -/
theorem context_truncation_bounds_context_section_witness :
    truncateContext (assembleContext [] [] [] [] []) 10
        = (assembleContext [] [] [] [] []).take 10 ++ truncationMarker ∧
    (truncateContext (assembleContext [] [] [] [] []) 10).length
        = 10 + truncationMarker.length ∧
    formatQueryWithContext (lit "Q") [] [] [] [] [] [] 10
        = lit "\n\n    " ++ truncateContext (assembleContext [] [] [] [] []) 10
          ++ lit "\n    \n    # Conversation History\n    "
          ++ conversationContext []
          ++ lit "\n\n    User: " ++ lit "Q"
          ++ lit "\n\n    AI: \n    " :=
  ⟨(context_truncation_bounds_context_section [] [] [] [] [] 10 (by decide)).1,
   (context_truncation_bounds_context_section [] [] [] [] [] 10 (by decide)).2.1,
   (context_truncation_bounds_context_section [] [] [] [] [] 10 (by decide)).2.2.2.2
     (lit "Q") []⟩

/-! ## Claims about query-element extraction -/

/-- Claim C5 counterexample: after a structured-parse failure the query
does not proceed with the default retrieval mix — the fallback object
carries an explicit all-zero `ideal_mix` which overrides the defaults of
`ask_main`. -/
theorem extraction_fallback_mix_counterexample :
    resolveIdealMix (extractQueryElements none) ≠ default_ideal_mix := by
  decide

/-- Claim C5 as amended: if the structured output fails to parse,
extraction does not raise and returns the fallback object (empty entities,
empty concepts, absent time reference, empty sub-question list) whose
explicit all-zero `ideal_mix` makes the query proceed with zero
chain-of-thought sub-questions and a zero retrieval mix (0 events,
0 claims, 0 chunks) instead of the default mix. -/
theorem extraction_fallback_zero_mix :
    (extractQueryElements none).key_entities = [] ∧
    (extractQueryElements none).key_concepts = [] ∧
    (extractQueryElements none).time_reference = none ∧
    (extractQueryElements none).chain_of_thought_questions = [] ∧
    (extractQueryElements none).ideal_mix = some ⟨some 0, some 0, some 0⟩ ∧
    resolveIdealMix (extractQueryElements none) = ⟨0, 0, 0⟩ :=
  ⟨rfl, rfl, rfl, rfl, rfl, rfl⟩

/-! ## Claims about the chain-of-thought fan-out -/

/-- A sub-question whose external calls all succeed. -/
def cexRun1 : SubQuestionRun :=
  ⟨lit "q1", .ok (), .ok (), [lit "fine"], none⟩

/-- A sub-question whose embedding computation raises. -/
def cexRun2 : SubQuestionRun :=
  ⟨lit "q2", .error (lit "embedding service down"), .ok (), [], none⟩

/-- Another sub-question whose external calls all succeed. -/
def cexRun3 : SubQuestionRun :=
  ⟨lit "q3", .ok (), .ok (), [lit "also fine"], none⟩

/-- Claim C6 counterexample: when one of three sub-questions fails during
its embedding computation (outside the guarded LLM call), the unguarded
`asyncio.gather` propagates the exception — the batch aborts, no answer
list is produced, and the siblings' answers never surface. -/
theorem fanout_non_llm_failure_aborts_batch :
    processAllChainOfThoughtQuestions [cexRun1, cexRun2, cexRun3]
        = Except.error (lit "embedding service down") ∧
    ∀ answers, processAllChainOfThoughtQuestions [cexRun1, cexRun2, cexRun3]
        ≠ Except.ok answers := by
  constructor
  · rfl
  · intro answers h
    rw [show processAllChainOfThoughtQuestions [cexRun1, cexRun2, cexRun3]
        = Except.error (lit "embedding service down") from rfl] at h
    exact Except.noConfusion h

theorem processAll_ok_of_no_task_exception :
    ∀ (runs : List SubQuestionRun),
      (∀ r ∈ runs, r.embeddingOutcome = .ok () ∧ r.retrievalOutcome = .ok ()) →
      processAllChainOfThoughtQuestions runs = Except.ok (runs.map cotAnswer) := by
  intro runs
  induction runs with
  | nil => intro _; rfl
  | cons r rest ih =>
    intro h
    obtain ⟨h1, h2⟩ := h r (List.mem_cons_self r rest)
    have hrest := ih (fun x hx => h x (List.mem_cons_of_mem _ hx))
    have hr : processChainOfThoughtQuestion r = .ok (cotAnswer r) := by
      simp [processChainOfThoughtQuestion, h1, h2]
    rw [processAllChainOfThoughtQuestions] at hrest ⊢
    rw [List.mapM_cons, hr, hrest]
    rfl

/-- Claim C6 as amended: failure isolation holds only at the LLM boundary.
When every sub-question's embedding computation and graph retrieval
succeed, a provider failure inside one sub-question's generation call does
not abort the batch: `call_llm` swallows it, every sibling slot is
populated, and the failing sub-question's own answer slot embeds the
readable error message. (A failure outside the guarded LLM call instead
aborts the whole batch, per the counterexample.) -/
theorem fanout_llm_failure_isolated :
    ∀ (runs : List SubQuestionRun),
      (∀ r ∈ runs, r.embeddingOutcome = .ok () ∧ r.retrievalOutcome = .ok ()) →
      processAllChainOfThoughtQuestions runs = Except.ok (runs.map cotAnswer) ∧
      ∀ r ∈ runs, ∀ f, r.llmFailure = some f →
        cotAnswer r = (lit "\n## " ++ r.question ++ lit "\x27\n\n"
          ++ r.llmChunks.flatten ++ llmErrorMessage) ++ lit "\n" := by
  intro runs h
  refine ⟨processAll_ok_of_no_task_exception runs h, ?_⟩
  intro r hr f hf
  simp [cotAnswer, callLLMOutput, hf, List.flatten_append, List.append_assoc]

/-- A sub-question whose LLM generation call fails after a partial chunk. -/
def okRunA : SubQuestionRun :=
  ⟨lit "qa", .ok (), .ok (), [lit "partial "], some (lit "rate limited")⟩

/-- A sub-question whose LLM generation call succeeds. -/
def okRunB : SubQuestionRun :=
  ⟨lit "qb", .ok (), .ok (), [lit "good answer"], none⟩

/-- Witness for the amended C6: two sub-questions, the first with a failing
generation call — the batch still returns both slots and the failing slot
embeds the error message. -/
theorem fanout_llm_failure_isolated_witness :
    processAllChainOfThoughtQuestions [okRunA, okRunB]
        = Except.ok ([okRunA, okRunB].map cotAnswer) ∧
    cotAnswer okRunA = (lit "\n## " ++ okRunA.question ++ lit "\x27\n\n"
      ++ okRunA.llmChunks.flatten ++ llmErrorMessage) ++ lit "\n" :=
  ⟨(fanout_llm_failure_isolated [okRunA, okRunB]
      (by
        intro r hr
        simp only [List.mem_cons, List.mem_singleton] at hr
        rcases hr with rfl | rfl | h
        · exact ⟨rfl, rfl⟩
        · exact ⟨rfl, rfl⟩
        · cases h)).1,
   (fanout_llm_failure_isolated [okRunA, okRunB]
      (by
        intro r hr
        simp only [List.mem_cons, List.mem_singleton] at hr
        rcases hr with rfl | rfl | h
        · exact ⟨rfl, rfl⟩
        · exact ⟨rfl, rfl⟩
        · cases h)).2
     okRunA (List.mem_cons_self _ _) (lit "rate limited") rfl⟩

theorem foldl_set_length (answers : List Str) :
    ∀ (order : List Nat) (slots : List (Option Str)),
      (order.foldl (fun s j => s.set j answers[j]?) slots).length = slots.length := by
  intro order
  induction order with
  | nil => intro slots; rfl
  | cons j rest ih =>
    intro slots
    simp only [List.foldl_cons]
    rw [ih]
    exact List.length_set slots j _

theorem completeInto_spec (answers : List Str) :
    ∀ (order : List Nat) (slots : List (Option Str)) (i : Nat), i < slots.length →
      (order.foldl (fun s j => s.set j answers[j]?) slots)[i]?
        = if i ∈ order then some answers[i]? else slots[i]? := by
  intro order
  induction order with
  | nil =>
    intro slots i hi
    simp
  | cons j rest ih =>
    intro slots i hi
    simp only [List.foldl_cons]
    rw [ih (slots.set j answers[j]?) i (by simpa using hi)]
    by_cases hmem : i ∈ rest
    · simp [hmem]
    · by_cases hij : j = i
      · subst hij
        simp [hmem, List.getElem?_set_self hi]
      · simp [hmem, hij, Ne.symm hij, List.getElem?_set_ne hij]

/-- Claim C7: the joined answer list of the fan-out has one slot per input
sub-question and is ordered by the input sub-question index, for every
completion order that completes each dispatched task. -/
theorem gather_preserves_input_order :
    ∀ (answers : List Str) (order : List Nat),
      (∀ i, i < answers.length → i ∈ order) →
      gatherJoin answers order = answers ∧
      (gatherJoin answers order).length = answers.length := by
  intro answers order h
  have hmain : gatherJoin answers order = answers := by
    apply List.ext_getElem?
    intro n
    rw [gatherJoin, List.getElem?_map]
    by_cases hn : n < answers.length
    · rw [completeInto, completeInto_spec answers order _ n (by simpa using hn)]
      rw [if_pos (h n hn)]
      rw [List.getElem?_eq_getElem hn]
      simp [List.getElem?_eq_getElem hn]
    · have hlen : (completeInto answers order).length = answers.length := by
        rw [completeInto, foldl_set_length]
        exact List.length_replicate ..
      rw [List.getElem?_eq_none (by omega : (completeInto answers order).length ≤ n)]
      rw [List.getElem?_eq_none (by omega : answers.length ≤ n)]
      rfl
  exact ⟨hmain, by rw [hmain]⟩

/-- Witness for C7: two answers with the second task completing first —
the join still returns them in input order. -/
theorem gather_preserves_input_order_witness :
    gatherJoin [lit "a1", lit "a2"] [1, 0] = [lit "a1", lit "a2"] ∧
    (gatherJoin [lit "a1", lit "a2"] [1, 0]).length = [lit "a1", lit "a2"].length :=
  gather_preserves_input_order [lit "a1", lit "a2"] [1, 0]
    (by
      intro i hi
      simp only [List.length_cons, List.length_nil] at hi
      interval_cases i <;> decide)

/-! ## Claim about the answer stream -/

/-- Claim C9: when the language-model provider errors, `call_llm` yields
the single user-facing fallback message after any chunks already
streamed, so the stream holds at least one increment; and when the guarded
body of `ask_main` raises, exactly one fallback increment is yielded. -/
theorem stream_yields_fallback_on_provider_error :
    ∀ (chunks : List Str) (err : Str) (e : Str),
      callLLMOutput chunks (some err) = chunks ++ [llmErrorMessage] ∧
      1 ≤ (callLLMOutput chunks (some err)).length ∧
      askMainStream (Except.error e) = [askMainErrorMessage] ∧
      (askMainStream (Except.error e)).length = 1 := by
  intro chunks err e
  refine ⟨rfl, ?_, rfl, rfl⟩
  simp [callLLMOutput]
